import Mathlib

/-!
# Verification of the jsonpp evaluator

A shallow embedding of the jsonpp preprocessor (Rust sources `paths.rs`,
`builtins.rs`, `evaluation.rs`, `jsonpp.rs`) together with proofs about
its evaluator, builtins and JSON projection.  The repository snapshot
contains an older inlined copy of the builtins inside `jsonpp.rs`; the
versions wired into the crate through `lib.rs` (`mod builtins; mod paths;`)
and used by `evaluation.rs` are the ones in `builtins.rs` and `paths.rs`,
and those are the ones embedded here.

Modelling conventions:
* Rust `i64` is modelled as `Int`.  Machine overflow is not modelled
  except where a cast is semantically relevant (`b as u32` in `pow`,
  modelled as `% 2 ^ 32`); every theorem below stays far away from the
  2^63 boundary.
* Rust `f64` is modelled exactly by the normalised rational type `FRat`
  below.  Every float computation a theorem depends on is exact in ℚ
  (zero tests, powers with integral exponents, halves under rounding);
  transcendental operations (float `log`) and decimal-literal rounding
  are given placeholder models and are not used by any theorem.
* Rust `HashMap<String, _>` is modelled as an association list in
  insertion order; the source's key order is not observable.
* A Rust `panic!` / failed `assert!` / `unwrap` is modelled as
  `Except.error` with an `EvalError` naming the abort.
* The resolve loop of `evaluate_raw` is unbounded in Rust; it is given a
  fuel parameter here.  Any terminating Rust run is reproduced with
  sufficient fuel, and every concrete theorem fixes an explicit fuel.
-/

/-- Exact-rational model of Rust `f64`.  The denominator is kept
positive and the fraction reduced, so structural equality coincides with
numeric equality — matching `f64`'s `==` on the values this development
manipulates (no NaN/infinity arises in any modelled computation). -/
structure FRat where
  num : Int
  den : Nat
deriving DecidableEq

namespace FRat

/-- Normalising constructor: divide out the gcd.  A zero denominator is
collapsed to 0; builtins guard the one division that could produce it. -/
def norm (n : Int) (d : Nat) : FRat :=
  if d = 0 then ⟨0, 1⟩
  else
    let g := Nat.gcd n.natAbs d
    ⟨Int.tdiv n g, d / g⟩

def ofInt (n : Int) : FRat := ⟨n, 1⟩

/-- The `matches!(…, Float(0.0))` test: `-0.0 == 0.0` in IEEE, and this
model has a single zero. -/
def isZero (q : FRat) : Bool := q.num == 0

def add (a b : FRat) : FRat :=
  norm (a.num * b.den + b.num * a.den) (a.den * b.den)

def neg (a : FRat) : FRat := ⟨-a.num, a.den⟩

def sub (a b : FRat) : FRat := add a (neg b)

def mul (a b : FRat) : FRat := norm (a.num * b.num) (a.den * b.den)

/-- Division; a numerically zero divisor yields the (out-of-model)
placeholder 0 — the `div` builtin panics before ever dividing by zero. -/
def div (a b : FRat) : FRat :=
  if b.num < 0 then norm (-(a.num * b.den)) (a.den * b.num.natAbs)
  else norm (a.num * b.den) (a.den * b.num.natAbs)

/-- Truncation toward zero (`f64::trunc` composed with `as i64`). -/
def trunc (q : FRat) : Int := Int.tdiv q.num q.den

/-- Rust `%` on floats: `a - b * (a / b).trunc()`. -/
def fmod (a b : FRat) : FRat :=
  if b.num = 0 then ⟨0, 1⟩ else sub a (mul b (ofInt (trunc (div a b))))

def lt (a b : FRat) : Bool := a.num * b.den < b.num * a.den

def le (a b : FRat) : Bool := a.num * b.den ≤ b.num * a.den

/-- `f64::min` (NaN does not arise in the model). -/
def fmin (a b : FRat) : FRat := if lt a b then a else b

/-- `f64::max`. -/
def fmax (a b : FRat) : FRat := if lt a b then b else a

def powNat (q : FRat) : Nat → FRat
  | 0 => ⟨1, 1⟩
  | n + 1 => mul q (powNat q n)

/-- Exact inverse; stays normalised. -/
def inv (q : FRat) : FRat :=
  if q.num < 0 then ⟨-(q.den : Int), q.num.natAbs⟩
  else if q.num = 0 then ⟨0, 1⟩
  else ⟨(q.den : Int), q.num.natAbs⟩

def powInt (q : FRat) : Int → FRat
  | .ofNat n => powNat q n
  | .negSucc n => inv (powNat q (n + 1))

/-- Model of `f64::powf`, exact for integral exponents — the only case
any theorem below exercises.  A non-integral exponent (whose true value
is irrational) gets a placeholder. -/
def powf (base expo : FRat) : FRat :=
  if expo.den = 1 then powInt base expo.num else ⟨0, 1⟩

/-- Placeholder for the float branch of `log` (transcendental, outside
the rational model; no theorem depends on it). -/
def logPlaceholder (_base _val : FRat) : FRat := ⟨0, 1⟩

/-- `f64::round` (round half away from zero) composed with `as i64`. -/
def roundAz (q : FRat) : Int :=
  if q.num < 0 then -(Int.fdiv (2 * (-q.num) + q.den) (2 * q.den))
  else Int.fdiv (2 * q.num + q.den) (2 * q.den)

end FRat

/-- Path chunks, from `paths.rs` (`enum PathChunk`). -/
inductive PathChunk where
  | parent
  | key (s : String)
  | index (n : Nat)
  | argument (n : Nat)
deriving DecidableEq, Repr

/-- A path is a sequence of chunks (`Vec<PathChunk>`). -/
abbrev JPath := List PathChunk

/-- The jsonpp value union, from `jsonpp.rs` (`enum JsonPP`).
`definition` inlines `struct Definition { vars, template }` and
`dynamic` inlines `struct Dynamic { args, path, dependencies }`. -/
inductive JsonPP where
  | undefined
  | null
  | bool (b : Bool)
  | str (s : String)
  | int (n : Int)
  | float (q : FRat)
  | array (xs : List JsonPP)
  | object (kvs : List (String × JsonPP))
  | identifier (s : String)
  | definition (vars : List String) (template : JsonPP)
  | dynamic (args : List JsonPP) (path : JPath) (dependencies : List JPath)

/-- Fatal abort conditions (Rust `panic!`s), see spec §7. -/
inductive EvalError where
  /-- `assert_eq!(args.len(), …)` and argument index out of bounds. -/
  | arityMismatch
  /-- A builtin received an operand of an unsupported kind. -/
  | typeMismatch
  /-- `div_impl`'s explicit `panic!("Division by zero")`. -/
  | divisionByZero
  /-- Rust's own arithmetic panics (`%` by zero, `ilog` domain, base-1 log). -/
  | numericPanic
  /-- `panic!("You are referencing something that doesn't exist")`. -/
  | danglingReference
  /-- `panic!("Reference cycle")`: an iteration made no progress. -/
  | referenceCycle
  /-- `panic!("Unrecognized function '…'")`. -/
  | unknownFunction (name : String)
  /-- `is_truthy`'s `panic!("Cannot evaluate truthiness of …")`. -/
  | truthinessPanic
  /-- `panic!("Cannot call '…'")`: a dynamic head that is not callable. -/
  | notCallable
  /-- Numeric parse failures (`ref_chain` bracket interiors, `str`→number). -/
  | parseFailure
  /-- `include` / `import` touch the filesystem, outside this model. -/
  | ioOutOfModel
  /-- Internal `assert!`s / `unwrap`s of the evaluator. -/
  | internalPanic
  /-- The residue check after evaluation (`try_into` failed at the root). -/
  | residualValue
  /-- Fuel exhaustion of the modelled resolve loop. -/
  | outOfFuel
deriving DecidableEq, Repr

mutual

/-- Structural equality of values, modelling the derived `PartialEq` on
`enum JsonPP` (float payloads compare numerically, which on normalised
`FRat` is structural comparison). -/
def JsonPP.beq : JsonPP → JsonPP → Bool
  | .undefined, .undefined => true
  | .null, .null => true
  | .bool a, .bool b => a == b
  | .str a, .str b => a == b
  | .int a, .int b => a == b
  | .float a, .float b => a == b
  | .array a, .array b => JsonPP.beqList a b
  | .object a, .object b => JsonPP.beqObj a b
  | .identifier a, .identifier b => a == b
  | .definition v t, .definition v' t' => v == v' && JsonPP.beq t t'
  | .dynamic a p d, .dynamic a' p' d' =>
      JsonPP.beqList a a' && p == p' && d == d'
  | _, _ => false

def JsonPP.beqList : List JsonPP → List JsonPP → Bool
  | [], [] => true
  | x :: xs, y :: ys => JsonPP.beq x y && JsonPP.beqList xs ys
  | _, _ => false

def JsonPP.beqObj : List (String × JsonPP) → List (String × JsonPP) → Bool
  | [], [] => true
  | (k, v) :: xs, (k', v') :: ys =>
      k == k' && JsonPP.beq v v' && JsonPP.beqObj xs ys
  | _, _ => false

end

/-- `paths.rs::make_absolute`: a target beginning with `Parent` is
relative; the first `Parent` anchors at `self_path` itself ("Skip the
first part. This allows for easier self ref"), each further `Parent`
pops, other chunks append.  Otherwise the target is already absolute. -/
def make_absolute (self_path target_path : JPath) : JPath :=
  match target_path with
  | .parent :: rest =>
      rest.foldl
        (fun out chunk =>
          if chunk = PathChunk.parent then out.dropLast else out ++ [chunk])
        self_path
  | _ => target_path

/-- `str::split('.')` on the character list (`""` splits to `[""]`). -/
def splitDot : List Char → List (List Char)
  | [] => [[]]
  | c :: rest =>
    match splitDot rest, c with
    | t :: ts, '.' => [] :: t :: ts
    | t :: ts, c' => (c' :: t) :: ts
    | [], _ => [[c]]

/-- Digit-string to `Nat` (`"".parse::<usize>()` fails); models Rust's
integer parse on the digit strings reachable from `ref_chain`. -/
def natOfDigits (cs : List Char) : Option Nat :=
  if cs = [] then none
  else cs.foldlM
    (fun acc c => if c.isDigit then some (acc * 10 + (c.toNat - 48)) else none)
    0

/-- One dotted token of a reference string (`paths.rs::ref_chain` body);
`none` models the `parse().unwrap()` panic on a bad bracket interior. -/
def chunkOfToken (cs : List Char) : Option PathChunk :=
  if cs = [] then some .parent
  else if cs.head? = some '[' && cs.getLast? = some ']' then
    (natOfDigits ((cs.drop 1).dropLast)).map .index
  else if cs.head? = some '(' && cs.getLast? = some ')' then
    (natOfDigits ((cs.drop 1).dropLast)).map .argument
  else some (.key (String.mk cs))

/-- `paths.rs::ref_chain`: split on `.` and classify every token. -/
def ref_chain (path : String) : Option JPath :=
  (splitDot path.toList).mapM chunkOfToken

example : ref_chain ".a" = some [.parent, .key "a"] := rfl
example : ref_chain "..a" = some [.parent, .parent, .key "a"] := rfl
example : ref_chain "a.[2]" = some [.key "a", .index 2] := rfl
example : make_absolute [.key "b"] [.parent, .key "a"] = [.key "b", .key "a"] := rfl
example : make_absolute [.key "b"] [.parent, .parent, .key "a"] = [.key "a"] := rfl
example : make_absolute [.key "b"] [.key "a"] = [.key "a"] := rfl

/-- First-match association-list lookup (`HashMap::get`). -/
def lookupKey (k : String) : List (String × JsonPP) → Option JsonPP
  | [] => none
  | (k', v) :: rest => if k' = k then some v else lookupKey k rest

/-- `HashMap::insert`: overwrite the value at an existing key, append a
fresh key.  Used for object literals ("later duplicates win"), object
`merge` and substitution tables. -/
def objInsert (kvs : List (String × JsonPP)) (k : String) (v : JsonPP) :
    List (String × JsonPP) :=
  match kvs with
  | [] => [(k, v)]
  | (k', v') :: rest =>
      if k' = k then (k', v) :: rest else (k', v') :: objInsert rest k v

/-- `jsonpp.rs::JsonPP::is_truthy`.  Partial: the catch-all arm is
`panic!("Cannot evaluate truthiness of '{:?}'", other)`, which covers
`Undefined`, `Identifier`, `Definition` and `Dynamic`. -/
def is_truthy : JsonPP → Except EvalError Bool
  | .null => .ok false
  | .bool b => .ok b
  | .str s => .ok (!(s == ""))
  | .int n => .ok (!(n == 0))
  | .float q => .ok (!q.isZero)
  | .array xs => .ok (!xs.isEmpty)
  | .object kvs => .ok (!kvs.isEmpty)
  | _ => .error .truthinessPanic

/-- `builtins.rs::num_cmp`: binary numeric comparison with Int→Float
coercion on mixed operands. -/
def num_cmp (args : List JsonPP) (int_f : Int → Int → Bool)
    (float_f : FRat → FRat → Bool) : Except EvalError JsonPP :=
  if args.length ≠ 2 then .error .arityMismatch
  else
    match args.get? 0, args.get? 1 with
    | some (.int a), some (.int b) => .ok (.bool (int_f a b))
    | some (.float a), some (.float b) => .ok (.bool (float_f a b))
    | some (.float a), some (.int b) => .ok (.bool (float_f a (.ofInt b)))
    | some (.int a), some (.float b) => .ok (.bool (float_f (.ofInt a) b))
    | _, _ => .error .typeMismatch

/-- `builtins.rs::num_pair_op`.  The function parameters are fallible
because Rust's own arithmetic can panic inside the closures (`%` with a
zero divisor, `ilog` domain errors). -/
def num_pair_op (int_f : Int → Int → Except EvalError Int)
    (float_f : FRat → FRat → Except EvalError FRat) :
    JsonPP → JsonPP → Except EvalError JsonPP
  | .int a, .int b => (int_f a b).map .int
  | .float a, .float b => (float_f a b).map .float
  | .float a, .int b => (float_f a (.ofInt b)).map .float
  | .int a, .float b => (float_f (.ofInt a) b).map .float
  | _, _ => .error .typeMismatch

/-- `builtins.rs::num_reduce`: left-fold of `num_pair_op`; the
`.reduce(…).unwrap()` panics on an empty argument list. -/
def num_reduce (int_f : Int → Int → Except EvalError Int)
    (float_f : FRat → FRat → Except EvalError FRat)
    (args : List JsonPP) : Except EvalError JsonPP :=
  match args with
  | [] => .error .arityMismatch
  | x :: xs => xs.foldlM (num_pair_op int_f float_f) x

def sum_impl (args : List JsonPP) : Except EvalError JsonPP :=
  num_reduce (fun a b => .ok (a + b)) (fun a b => .ok (a.add b)) args

def mul_impl (args : List JsonPP) : Except EvalError JsonPP :=
  num_reduce (fun a b => .ok (a * b)) (fun a b => .ok (a.mul b)) args

def sub_impl (args : List JsonPP) : Except EvalError JsonPP :=
  if args.length ≠ 2 then .error .arityMismatch
  else num_reduce (fun a b => .ok (a - b)) (fun a b => .ok (a.sub b)) args

/-- `builtins.rs::div_impl`: an explicit `matches!(args[1],
JsonPP::Float(0.0) | JsonPP::Int(0))` guard panics "Division by zero"
before any arithmetic happens.  Rust `i64` division truncates. -/
def div_impl (args : List JsonPP) : Except EvalError JsonPP :=
  if args.length ≠ 2 then .error .arityMismatch
  else if (match args.get? 1 with
           | some (.int 0) => true
           | some (.float q) => q.isZero
           | _ => false) then .error .divisionByZero
  else num_reduce (fun a b => .ok (Int.tdiv a b)) (fun a b => .ok (a.div b)) args

/-- `builtins.rs::mod_impl`: no zero guard — Rust's own `%` panics on a
zero divisor (modelled as `numericPanic`). -/
def mod_impl (args : List JsonPP) : Except EvalError JsonPP :=
  if args.length ≠ 2 then .error .arityMismatch
  else num_reduce
    (fun a b => if b = 0 then .error .numericPanic else .ok (Int.tmod a b))
    (fun a b => if b.num = 0 then .error .numericPanic else .ok (a.fmod b))
    args

/-- `builtins.rs::pow_impl`'s integer closure: `if b.is_positive() {
a.pow(b as u32) } else { (a as f64).powf(b as f64).round() as i64 }`.
The `as u32` cast wraps (`% 2 ^ 32`); `i64` overflow of `pow` itself is
not modelled. -/
def powIntInt (a b : Int) : Int :=
  if 0 < b then a ^ (b.toNat % 2 ^ 32)
  else FRat.roundAz (FRat.powf (FRat.ofInt a) (FRat.ofInt b))

def pow_impl (args : List JsonPP) : Except EvalError JsonPP :=
  if args.length ≠ 2 then .error .arityMismatch
  else num_reduce (fun a b => .ok (powIntInt a b))
    (fun a b => .ok (a.powf b)) args

/-- `builtins.rs::log_impl`: `b.ilog(a)` on ints (panics unless `a ≥ 2`
and `b ≥ 1`); on floats base 1 panics, otherwise `b.log(a)` (a
transcendental placeholder here — no theorem uses it). -/
def log_impl (args : List JsonPP) : Except EvalError JsonPP :=
  if args.length ≠ 2 then .error .arityMismatch
  else num_reduce
    (fun a b =>
      if 2 ≤ a && 1 ≤ b then .ok (Nat.log a.toNat b.toNat : Int)
      else .error .numericPanic)
    (fun a b =>
      if a = FRat.ofInt 1 then .error .numericPanic
      else .ok (FRat.logPlaceholder a b))
    args

/-- `builtins.rs::len_impl`: byte length of strings, element count of
arrays, entry count of objects.  (The strings in this development are
ASCII, where `String.length` equals the Rust byte length.) -/
def len_impl (args : List JsonPP) : Except EvalError JsonPP :=
  if args.length ≠ 1 then .error .arityMismatch
  else match args.get? 0 with
  | some (.str s) => .ok (.int s.length)
  | some (.array xs) => .ok (.int xs.length)
  | some (.object kvs) => .ok (.int kvs.length)
  | _ => .error .typeMismatch

def min_impl (args : List JsonPP) : Except EvalError JsonPP :=
  num_reduce (fun a b => .ok (min a b)) (fun a b => .ok (a.fmin b)) args

def max_impl (args : List JsonPP) : Except EvalError JsonPP :=
  num_reduce (fun a b => .ok (max a b)) (fun a b => .ok (a.fmax b)) args

/-- `builtins.rs::eq_impl`: structural equality of the value union,
with no numeric coercion (`first_arg == second_arg` on `JsonPP`). -/
def eq_impl (args : List JsonPP) : Except EvalError JsonPP :=
  if args.length ≠ 2 then .error .arityMismatch
  else match args.get? 0, args.get? 1 with
  | some a, some b => .ok (.bool (JsonPP.beq a b))
  | _, _ => .error .internalPanic

/-- `builtins.rs::if_impl`: three operands, condition coerced through
`is_truthy`; both branch values are already fully resolved by the
scheduler before this runs (design decision 2). -/
def if_impl (args : List JsonPP) : Except EvalError JsonPP :=
  if args.length ≠ 3 then .error .arityMismatch
  else match args.get? 0, args.get? 1, args.get? 2 with
  | some c, some t, some e =>
      (is_truthy c).map (fun b => if b then t else e)
  | _, _, _ => .error .internalPanic

/-- `builtins.rs::include_impl` reads the filesystem: outside this
model (no theorem mentions it). -/
def include_impl (_args : List JsonPP) : Except EvalError JsonPP :=
  .error .ioOutOfModel

/-- `builtins.rs::import_impl` reads and parses a file: outside this
model (no theorem mentions it). -/
def import_impl (_args : List JsonPP) : Except EvalError JsonPP :=
  .error .ioOutOfModel

/-- Placeholder for Rust's `f64` display (no theorem depends on the
exact text of a printed float). -/
def floatToString (q : FRat) : String :=
  toString q.num ++ "/" ++ toString q.den

/-- `Vec::join(", ")`. -/
def joinComma : List String → String
  | [] => ""
  | [s] => s
  | s :: rest => s ++ ", " ++ joinComma rest

mutual

/-- `builtins.rs::str_impl`: human-readable conversion; containers are
rendered with ", " separators and objects with quoted keys (this is not
strict JSON and the spec documents it as such). -/
def str_impl (args : List JsonPP) : Except EvalError JsonPP :=
  if args.length ≠ 1 then .error .arityMismatch
  else match args.get? 0 with
  | some v => (strOf v).map .str
  | none => .error .internalPanic

def strOf : JsonPP → Except EvalError String
  | .str s => .ok s
  | .null => .ok "null"
  | .bool b => .ok (if b then "true" else "false")
  | .int n => .ok (toString n)
  | .float q => .ok (floatToString q)
  | .array xs => (strOfList xs).map (fun parts => "[" ++ joinComma parts ++ "]")
  | .object kvs =>
      (strOfObj kvs).map (fun parts => "\x7b" ++ joinComma parts ++ "\x7d")
  | _ => .error .typeMismatch

def strOfList : List JsonPP → Except EvalError (List String)
  | [] => .ok []
  | x :: xs => do
      let s ← strOf x
      let rest ← strOfList xs
      .ok (s :: rest)

def strOfObj : List (String × JsonPP) → Except EvalError (List String)
  | [] => .ok []
  | (k, v) :: kvs => do
      let s ← strOf v
      let rest ← strOfObj kvs
      .ok (("\"" ++ k ++ "\": " ++ s) :: rest)

end

/-- Rust `str::parse::<i64>` on the strings this development reaches:
optional sign followed by decimal digits. -/
def parseI64 (s : String) : Option Int :=
  match s.toList with
  | '-' :: rest => (natOfDigits rest).map (fun n => -(n : Int))
  | '+' :: rest => (natOfDigits rest).map (fun n => (n : Int))
  | cs => (natOfDigits cs).map (fun n => (n : Int))

/-- Rust `str::parse::<f64>` restricted to plain decimal notation
(sign, digits, optional fraction).  Exact in the rational model; the
IEEE rounding of non-dyadic decimals and exponent notation are outside
the model, and no theorem depends on this function. -/
def parseFRat (s : String) : Option FRat :=
  let parseUnsigned : List Char → Option FRat := fun cs =>
    match cs.span (fun c => c ≠ '.') with
    | (intPart, []) => (natOfDigits intPart).map (fun n => FRat.ofInt n)
    | (intPart, _ :: fracPart) => do
        let i ← natOfDigits intPart
        let f ← natOfDigits fracPart
        some (FRat.norm (i * 10 ^ fracPart.length + f) (10 ^ fracPart.length))
  match s.toList with
  | '-' :: rest => (parseUnsigned rest).map FRat.neg
  | '+' :: rest => parseUnsigned rest
  | cs => parseUnsigned cs

/-- `builtins.rs::int_impl`. -/
def int_impl (args : List JsonPP) : Except EvalError JsonPP :=
  if args.length ≠ 1 then .error .arityMismatch
  else match args.get? 0 with
  | some (.int n) => .ok (.int n)
  | some .null => .ok (.int 0)
  | some (.bool b) => .ok (.int (if b then 1 else 0))
  | some (.float q) => .ok (.int q.roundAz)
  | some (.str s) =>
      match parseI64 s with
      | some n => .ok (.int n)
      | none => .error .parseFailure
  | _ => .error .typeMismatch

/-- `builtins.rs::float_impl`. -/
def float_impl (args : List JsonPP) : Except EvalError JsonPP :=
  if args.length ≠ 1 then .error .arityMismatch
  else match args.get? 0 with
  | some (.float q) => .ok (.float q)
  | some .null => .ok (.float (FRat.ofInt 0))
  | some (.bool b) => .ok (.float (FRat.ofInt (if b then 1 else 0)))
  | some (.int n) => .ok (.float (FRat.ofInt n))
  | some (.str s) =>
      match parseFRat s with
      | some q => .ok (.float q)
      | none => .error .parseFailure
  | _ => .error .typeMismatch

/-- `builtins.rs::range_impl`: `[start, end)` as an array of ints. -/
def range_impl (args : List JsonPP) : Except EvalError JsonPP :=
  if args.length ≠ 2 then .error .arityMismatch
  else match args.get? 0, args.get? 1 with
  | some (.int a), some (.int b) =>
      .ok (.array ((List.range (b - a).toNat).map (fun i => .int (a + i))))
  | _, _ => .error .typeMismatch

def isStrVal : JsonPP → Bool
  | .str _ => true
  | _ => false

def isArrayVal : JsonPP → Bool
  | .array _ => true
  | _ => false

def isObjectVal : JsonPP → Bool
  | .object _ => true
  | _ => false

/-- `builtins.rs::merge_impl`: all operands must share one container
kind; strings and arrays concatenate, objects fold left with later keys
winning. -/
def merge_impl (args : List JsonPP) : Except EvalError JsonPP :=
  if args.all isStrVal then
    .ok (.str (args.foldl (fun acc v =>
      match v with | .str s => acc ++ s | _ => acc) ""))
  else if args.all isArrayVal then
    .ok (.array (args.foldl (fun acc v =>
      match v with | .array xs => acc ++ xs | _ => acc) []))
  else if args.all isObjectVal then
    .ok (.object (args.foldl (fun acc v =>
      match v with
      | .object kvs => kvs.foldl (fun m kv => objInsert m kv.1 kv.2) acc
      | _ => acc) []))
  else .error .typeMismatch

/-- `builtins.rs::def_impl`: at least two operands; every leading
operand must be an `Identifier` and becomes a parameter name (no
distinctness check), the final operand is the template. -/
def def_impl (args : List JsonPP) : Except EvalError JsonPP :=
  if args.length < 2 then .error .arityMismatch
  else do
    let vars ← (args.take (args.length - 1)).mapM (fun a =>
      match a with
      | .identifier v => Except.ok v
      | _ => Except.error EvalError.typeMismatch)
    match args.getLast? with
    | some t => .ok (.definition vars t)
    | none => .error .internalPanic

/-- `builtins.rs::map_impl`: wrap every element in a fresh dynamic
`(callable element)` with default (empty) path and dependencies. -/
def map_impl (args : List JsonPP) : Except EvalError JsonPP :=
  if args.length ≠ 2 then .error .arityMismatch
  else match args.get? 0, args.get? 1 with
  | some callable, some (.array xs) =>
      .ok (.array (xs.map (fun el => .dynamic [callable, el] [] [])))
  | some callable, some (.object kvs) =>
      .ok (.object (kvs.map (fun kv =>
        (kv.1, .dynamic [callable, kv.2] [] []))))
  | _, _ => .error .typeMismatch

/-- `builtins.rs::filter_impl`: each element becomes
`(if (callable element) element undefined)`. -/
def filter_impl (args : List JsonPP) : Except EvalError JsonPP :=
  if args.length ≠ 2 then .error .arityMismatch
  else match args.get? 0, args.get? 1 with
  | some callable, some (.array xs) =>
      .ok (.array (xs.map (fun el =>
        .dynamic
          [.identifier "if", .dynamic [callable, el] [] [], el, .undefined]
          [] [])))
  | some callable, some (.object kvs) =>
      .ok (.object (kvs.map (fun kv =>
        (kv.1,
          .dynamic
            [.identifier "if", .dynamic [callable, kv.2] [] [], kv.2,
              .undefined]
            [] []))))
  | _, _ => .error .typeMismatch

/-- `builtins.rs::reduce_impl`: left-fold pairing adjacent elements into
`(callable acc element)`; the empty array reduces to `Undefined`. -/
def reduce_impl (args : List JsonPP) : Except EvalError JsonPP :=
  if args.length ≠ 2 then .error .arityMismatch
  else match args.get? 0, args.get? 1 with
  | some callable, some (.array xs) =>
      match xs with
      | [] => .ok .undefined
      | x :: rest =>
          .ok (rest.foldl
            (fun acc el => .dynamic [callable, acc, el] [] []) x)
  | _, _ => .error .typeMismatch

/-- `builtins.rs::keys_impl`. -/
def keys_impl (args : List JsonPP) : Except EvalError JsonPP :=
  if args.length ≠ 1 then .error .arityMismatch
  else match args.get? 0 with
  | some (.object kvs) => .ok (.array (kvs.map (fun kv => .str kv.1)))
  | _ => .error .typeMismatch

/-- `builtins.rs::values_impl`. -/
def values_impl (args : List JsonPP) : Except EvalError JsonPP :=
  if args.length ≠ 1 then .error .arityMismatch
  else match args.get? 0 with
  | some (.object kvs) => .ok (.array (kvs.map (fun kv => kv.2)))
  | _ => .error .typeMismatch

/-- The strict-JSON value model (`serde_json::Value`).  A number keeps
its `i64`/`f64` provenance, as `serde_json::Number` does. -/
inductive Json where
  | null
  | bool (b : Bool)
  | intNum (n : Int)
  | floatNum (q : FRat)
  | str (s : String)
  | arr (xs : List Json)
  | obj (kvs : List (String × Json))

mutual

/-- `jsonpp.rs::TryInto<serde_json::Value> for JsonPP` (the projection
step): scalars map across, containers `filter_map` their children —
dropping any child whose conversion fails — and `Undefined`,
`Identifier`, `Definition`, `Dynamic` themselves fail. -/
def tryIntoJson : JsonPP → Option Json
  | .null => some .null
  | .bool b => some (.bool b)
  | .str s => some (.str s)
  | .int n => some (.intNum n)
  | .float q => some (.floatNum q)
  | .array xs => some (.arr (tryIntoJsonList xs))
  | .object kvs => some (.obj (tryIntoJsonObj kvs))
  | _ => none

def tryIntoJsonList : List JsonPP → List Json
  | [] => []
  | x :: xs =>
      match tryIntoJson x with
      | some j => j :: tryIntoJsonList xs
      | none => tryIntoJsonList xs

def tryIntoJsonObj : List (String × JsonPP) → List (String × Json)
  | [] => []
  | (k, v) :: kvs =>
      match tryIntoJson v with
      | some j => (k, j) :: tryIntoJsonObj kvs
      | none => tryIntoJsonObj kvs

end

mutual

/-- The canonical inclusion of strict JSON into the jsonpp value union.
A tree is "already valid strict JSON" (spec §8, round-trip property)
exactly when it is `ofJson j` for some `j`. -/
def ofJson : Json → JsonPP
  | .null => .null
  | .bool b => .bool b
  | .intNum n => .int n
  | .floatNum q => .float q
  | .str s => .str s
  | .arr xs => .array (ofJsonList xs)
  | .obj kvs => .object (ofJsonObj kvs)

def ofJsonList : List Json → List JsonPP
  | [] => []
  | x :: xs => ofJson x :: ofJsonList xs

def ofJsonObj : List (String × Json) → List (String × JsonPP)
  | [] => []
  | (k, v) :: kvs => (k, ofJson v) :: ofJsonObj kvs

end

mutual

/-- `evaluation.rs::contains_dynamics`: does the subtree hold any
`Dynamic`?  (It does not look inside `Definition` templates.) -/
def contains_dynamics : JsonPP → Bool
  | .dynamic _ _ _ => true
  | .array xs => contains_dynamicsList xs
  | .object kvs => contains_dynamicsObj kvs
  | _ => false

def contains_dynamicsList : List JsonPP → Bool
  | [] => false
  | x :: xs => contains_dynamics x || contains_dynamicsList xs

def contains_dynamicsObj : List (String × JsonPP) → Bool
  | [] => false
  | kv :: kvs => contains_dynamics kv.2 || contains_dynamicsObj kvs

end

/-- `evaluation.rs::abs_fetch`: absolute-path lookup.  `None` when a
step's container kind mismatches or a key/index is missing.  The Rust
code panics on a `Parent` chunk (an internal invariant of callers —
dependency paths are absolutised first); that unreachable arm is
modelled as `none`. -/
def abs_fetch : JPath → JsonPP → Option JsonPP
  | [], root => some root
  | .parent :: _, _ => none
  | .key k :: rest, .object kvs => (lookupKey k kvs).bind (abs_fetch rest)
  | .index i :: rest, .array xs => (xs.get? i).bind (abs_fetch rest)
  | .argument i :: rest, .dynamic args _ _ =>
      (args.get? i).bind (abs_fetch rest)
  | _, _ => none

/-- Replace the value at `k` (which must exist) in an association list,
keeping its position — `inner.get_mut(key)` semantics. -/
def objSet (kvs : List (String × JsonPP)) (k : String) (v : JsonPP) :
    List (String × JsonPP) :=
  match kvs with
  | [] => []
  | (k', v') :: rest =>
      if k' = k then (k', v) :: rest else (k', v') :: objSet rest k v

/-- `evaluation.rs::insert`: write `value` at `path` in `root`,
replacing the node there in place.  Any mismatch between the path and
the tree is one of the function's panics. -/
def insertAt : JPath → JsonPP → JsonPP → Except EvalError JsonPP
  | [], _, value => .ok value
  | .parent :: _, _, _ => .error .internalPanic
  | .key k :: rest, .object kvs, value =>
      match lookupKey k kvs with
      | none => .error .internalPanic
      | some old =>
          (insertAt rest old value).map (fun nv => .object (objSet kvs k nv))
  | .index i :: rest, .array xs, value =>
      match xs.get? i with
      | none => .error .internalPanic
      | some old =>
          (insertAt rest old value).map (fun nv => .array (xs.set i nv))
  | .argument i :: rest, .dynamic args p deps, value =>
      match args.get? i with
      | none => .error .internalPanic
      | some old =>
          (insertAt rest old value).map
            (fun nv => .dynamic (args.set i nv) p deps)
  | _, _, _ => .error .internalPanic

mutual

/-- `evaluation.rs::recursive_substitute`: replace every identifier
bound in the table, recursing into arrays, objects, definition
templates and dynamic arguments (a dynamic's `path`/`dependencies` and
a definition's `vars` are kept as they are — `..dynamic`/`..definition`
struct update). -/
def recursive_substitute (sub_table : List (String × JsonPP)) :
    JsonPP → JsonPP
  | .identifier ident =>
      match lookupKey ident sub_table with
      | some v => v
      | none => .identifier ident
  | .array xs => .array (recursive_substituteList sub_table xs)
  | .object kvs => .object (recursive_substituteObj sub_table kvs)
  | .definition vars template =>
      .definition vars (recursive_substitute sub_table template)
  | .dynamic args p deps =>
      .dynamic (recursive_substituteList sub_table args) p deps
  | other => other

def recursive_substituteList (sub_table : List (String × JsonPP)) :
    List JsonPP → List JsonPP
  | [] => []
  | x :: xs =>
      recursive_substitute sub_table x ::
        recursive_substituteList sub_table xs

def recursive_substituteObj (sub_table : List (String × JsonPP)) :
    List (String × JsonPP) → List (String × JsonPP)
  | [] => []
  | (k, v) :: kvs =>
      (k, recursive_substitute sub_table v) ::
        recursive_substituteObj sub_table kvs

end

/-- `evaluation.rs::definition_substitution`: arity must match; the
table is a `HashMap` collected from `vars.zip(args)`, so a duplicated
parameter name keeps its last pairing. -/
def definition_substitution (vars : List String) (template : JsonPP)
    (args : List JsonPP) : Except EvalError JsonPP :=
  if vars.length ≠ args.length then .error .internalPanic
  else
    .ok (recursive_substitute
      ((vars.zip args).foldl (fun m kv => objInsert m kv.1 kv.2) [])
      template)

/-- `builtins.rs::ref_impl`: the sole operand must be a literal string;
its `ref_chain` is absolutised against the caller's path and fetched
from the root, `unwrap`ping the result. -/
def ref_impl (args : List JsonPP) (self_path : JPath) (root : JsonPP) :
    Except EvalError JsonPP :=
  match args.head? with
  | none => .error .arityMismatch
  | some (.str target) =>
      match ref_chain target with
      | none => .error .parseFailure
      | some tp =>
          match abs_fetch (make_absolute self_path tp) root with
          | some v => .ok v
          | none => .error .internalPanic
  | some _ => .error .typeMismatch

/-- `jsonpp.rs::Dynamic::resolve`: dispatch on the head value.  An
`Identifier` head selects a builtin by name, a `Definition` head
invokes template substitution, anything else is `panic!("Cannot call
…")`; an empty argument list trips `assert!(!self.args.is_empty())`. -/
def resolveDyn (args : List JsonPP) (path : JPath) (root : JsonPP) :
    Except EvalError JsonPP :=
  match args with
  | [] => .error .internalPanic
  | cmd :: rest =>
    match cmd with
    | .identifier f =>
        if f = "sum" then sum_impl rest
        else if f = "sub" then sub_impl rest
        else if f = "mul" then mul_impl rest
        else if f = "div" then div_impl rest
        else if f = "mod" then mod_impl rest
        else if f = "pow" then pow_impl rest
        else if f = "log" then log_impl rest
        else if f = "len" then len_impl rest
        else if f = "ref" then ref_impl rest path root
        else if f = "min" then min_impl rest
        else if f = "max" then max_impl rest
        else if f = "eq" then eq_impl rest
        else if f = "gt" then
          num_cmp rest (fun a b => a > b) (fun a b => b.lt a)
        else if f = "lt" then
          num_cmp rest (fun a b => a < b) (fun a b => a.lt b)
        else if f = "gte" then
          num_cmp rest (fun a b => a ≥ b) (fun a b => b.le a)
        else if f = "lte" then
          num_cmp rest (fun a b => a ≤ b) (fun a b => a.le b)
        else if f = "if" then if_impl rest
        else if f = "include" then include_impl rest
        else if f = "import" then import_impl rest
        else if f = "str" then str_impl rest
        else if f = "int" then int_impl rest
        else if f = "float" then float_impl rest
        else if f = "range" then range_impl rest
        else if f = "merge" then merge_impl rest
        else if f = "def" then def_impl rest
        else if f = "map" then map_impl rest
        else if f = "filter" then filter_impl rest
        else if f = "reduce" then reduce_impl rest
        else if f = "keys" then keys_impl rest
        else if f = "values" then values_impl rest
        else .error (.unknownFunction f)
    | .definition vars template => definition_substitution vars template rest
    | _ => .error .notCallable

/-- `HashSet::insert` on the pending path set (kept as a duplicate-free
list in first-insertion order). -/
def pendingInsert (pending : List JPath) (p : JPath) : List JPath :=
  if p ∈ pending then pending else pending ++ [p]

mutual

/-- `evaluation.rs::preprocess`: walk the tree top-down.  A dynamic
records its own path, is inserted into the pending set, preprocesses
its arguments (collecting a `[Parent, Argument i]` dependency for every
argument that is still dynamic afterwards), then: a `ref` head with a
literal string argument additionally records that string's `ref_chain`
as a dependency; a `def` head is resolved immediately (its path and all
sub-paths are removed from the pending set and the `Definition` value
returned in place).  Arrays and objects recurse with extended paths;
all other variants are returned unchanged. -/
def preprocess (pending : List JPath) (path : JPath) :
    JsonPP → Except EvalError (List JPath × JsonPP)
  | .dynamic args _ deps => do
      let pending1 := pendingInsert pending path
      let (pending2, newArgs, newDeps) ← preprocessArgs pending1 path 0 deps args
      match newArgs with
      | [] => Except.error EvalError.internalPanic
      | .identifier "ref" :: _ =>
          (match newArgs.get? 1 with
           | some (.str s) =>
               match ref_chain s with
               | some chain =>
                   Except.ok
                     (pending2, JsonPP.dynamic newArgs path (newDeps ++ [chain]))
               | none => Except.error EvalError.parseFailure
           | some (.dynamic _ _ _) =>
               Except.ok (pending2, JsonPP.dynamic newArgs path newDeps)
           | some _ => Except.error EvalError.typeMismatch
           | none => Except.error EvalError.arityMismatch)
      | .identifier "def" :: _ =>
          let pending3 := pending2.filter (fun q => !(List.isPrefixOf path q))
          (resolveDyn newArgs path JsonPP.null).map (fun v => (pending3, v))
      | _ => Except.ok (pending2, JsonPP.dynamic newArgs path newDeps)
  | .array xs =>
      (preprocessArr pending path 0 xs).map (fun r => (r.1, JsonPP.array r.2))
  | .object kvs =>
      (preprocessObj pending path kvs).map (fun r => (r.1, JsonPP.object r.2))
  | v => .ok (pending, v)

def preprocessArgs (pending : List JPath) (path : JPath) (i : Nat)
    (deps : List JPath) :
    List JsonPP → Except EvalError (List JPath × List JsonPP × List JPath)
  | [] => .ok (pending, [], deps)
  | a :: rest => do
      let (p1, a') ← preprocess pending (path ++ [PathChunk.argument i]) a
      let deps1 :=
        match a' with
        | .dynamic _ _ _ => deps ++ [[PathChunk.parent, PathChunk.argument i]]
        | _ => deps
      let (p2, rest', deps2) ← preprocessArgs p1 path (i + 1) deps1 rest
      .ok (p2, a' :: rest', deps2)

def preprocessArr (pending : List JPath) (path : JPath) (i : Nat) :
    List JsonPP → Except EvalError (List JPath × List JsonPP)
  | [] => .ok (pending, [])
  | x :: xs => do
      let (p1, y) ← preprocess pending (path ++ [PathChunk.index i]) x
      let (p2, ys) ← preprocessArr p1 path (i + 1) xs
      .ok (p2, y :: ys)

def preprocessObj (pending : List JPath) (path : JPath) :
    List (String × JsonPP) →
      Except EvalError (List JPath × List (String × JsonPP))
  | [] => .ok (pending, [])
  | (k, v) :: kvs => do
      let (p1, v') ← preprocess pending (path ++ [PathChunk.key k]) v
      let (p2, kvs') ← preprocessObj p1 path kvs
      .ok (p2, (k, v') :: kvs')

end

/-- The evaluator's mutable state: the tree and the pending path set. -/
structure EvalState where
  root : JsonPP
  pending : List JPath

/-- `Dynamic::is_ref` on an argument list. -/
def isRefHead : List JsonPP → Bool
  | .identifier s :: _ => s == "ref"
  | _ => false

/-- The "walk up the parents" loop of the dependency check: pop path
components until something fetches; a `Dynamic` ancestor means the
target may come to exist later (live), anything else is the
`DanglingReference` panic.  The loop pops one component per step, so a
fuel of the path length makes the model exact. -/
def ancestorLive (root : JsonPP) : Nat → JPath → Except EvalError Bool
  | _, [] => .error .danglingReference
  | 0, _ => .error .danglingReference
  | fuel + 1, tp =>
      match abs_fetch tp root with
      | some (.dynamic _ _ _) => .ok true
      | some _ => .error .danglingReference
      | none => ancestorLive root fuel tp.dropLast

/-- One dependency's liveness test from the resolve loop of
`evaluation.rs::evaluate_raw`: absolutise, fetch, and check for
remaining dynamics; when the target does not exist the caller must be a
`ref` (`assert!`) and the nearest existing ancestor decides. -/
def depIsLive (dynPath : JPath) (argsRef : Bool) (root : JsonPP)
    (dep : JPath) : Except EvalError Bool :=
  let path := make_absolute dynPath dep
  match abs_fetch path root with
  | some target => .ok (contains_dynamics target)
  | none =>
      if argsRef then ancestorLive root path.length path.dropLast
      else .error .internalPanic

/-- The body of the `for dyn_path in dynamic_paths.clone()` loop: fetch
the dynamic at `p` (it must still be one), test all its dependencies;
with zero live dependencies resolve it, preprocess the result in place,
drop `p` from the pending set unless the result is itself dynamic, and
splice the result into the tree. -/
def processPath (st : EvalState) (progressing : Bool) (p : JPath) :
    Except EvalError (EvalState × Bool) :=
  match abs_fetch p st.root with
  | some (.dynamic args _ deps) => do
      let lives ← deps.mapM (depIsLive p (isRefHead args) st.root)
      if lives.all (fun l => l = false) then do
        let v ← resolveDyn args p st.root
        let (pending1, processed) ← preprocess st.pending p v
        let pending2 :=
          match processed with
          | .dynamic _ _ _ => pending1
          | _ => pending1.erase p
        let root1 ← insertAt p st.root processed
        Except.ok (⟨root1, pending2⟩, true)
      else .ok (st, progressing)
  | _ => .error .internalPanic

/-- One iteration of the resolve loop: scan a snapshot of the pending
set, threading the state and the `progressing` flag. -/
def runIteration (st : EvalState) : Except EvalError (EvalState × Bool) :=
  st.pending.foldlM (fun acc p => processPath acc.1 acc.2 p) (st, false)

/-- The `while !dynamic_paths.is_empty()` loop: stop when pending is
empty, fail with `ReferenceCycle` when an iteration resolves nothing. -/
def evalLoop : Nat → EvalState → Except EvalError JsonPP
  | 0, _ => .error .outOfFuel
  | fuel + 1, st =>
      if st.pending.isEmpty then .ok st.root
      else do
        let (st1, prog) ← runIteration st
        if prog then evalLoop fuel st1 else .error .referenceCycle

/-- `evaluation.rs::evaluate_raw`: preprocess from the empty pending
set and the root path, then run the resolve loop. -/
def evaluate_raw (fuel : Nat) (parsed : JsonPP) :
    Except EvalError JsonPP := do
  let (pending, root) ← preprocess [] [] parsed
  evalLoop fuel ⟨root, pending⟩

/-- `evaluation.rs::evaluate`: evaluate and project to strict JSON;
a root that still fails conversion is the residual-value panic. -/
def evaluate (fuel : Nat) (parsed : JsonPP) : Except EvalError Json := do
  let root ← evaluate_raw fuel parsed
  match tryIntoJson root with
  | some out => .ok out
  | none => .error .residualValue

/-! ## Helper lemmas -/

@[simp] theorem exceptBind_ok {ε α β : Type} (a : α) (f : α → Except ε β) :
    (Except.ok a : Except ε α) >>= f = f a := rfl

@[simp] theorem exceptBind_error {ε α β : Type} (e : ε) (f : α → Except ε β) :
    (Except.error e : Except ε α) >>= f = .error e := rfl

@[simp] theorem exceptMap_ok {ε α β : Type} (f : α → β) (a : α) :
    Except.map f (Except.ok a : Except ε α) = .ok (f a) := rfl

@[simp] theorem exceptMap_error {ε α β : Type} (f : α → β) (e : ε) :
    Except.map f (Except.error e : Except ε α) = .error e := rfl

@[simp] theorem exceptOk_inj {ε α : Type} (a b : α) :
    ((Except.ok a : Except ε α) = .ok b) ↔ a = b := by
  constructor
  · intro h; injection h
  · intro h; rw [h]

@[simp] theorem exceptOk_ne_error {ε α : Type} (a : α) (e : ε) :
    ¬ ((Except.ok a : Except ε α) = .error e) := by
  intro h; injection h

@[simp] theorem exceptError_ne_ok {ε α : Type} (a : α) (e : ε) :
    ¬ ((Except.error e : Except ε α) = .ok a) := by
  intro h; injection h

mutual

/-- A subtree without dynamics is left untouched by `preprocess`, and
the pending set does not change. -/
theorem preprocess_nodyn (pending : List JPath) (path : JPath) :
    ∀ v : JsonPP, contains_dynamics v = false →
      preprocess pending path v = .ok (pending, v)
  | .undefined, _ => rfl
  | .null, _ => rfl
  | .bool _, _ => rfl
  | .str _, _ => rfl
  | .int _, _ => rfl
  | .float _, _ => rfl
  | .identifier _, _ => rfl
  | .definition _ _, _ => rfl
  | .dynamic _ _ _, h => by simp [contains_dynamics] at h
  | .array xs, h => by
      have hxs : contains_dynamicsList xs = false := by
        simpa [contains_dynamics] using h
      simp [preprocess, preprocessArr_nodyn pending path 0 xs hxs]
  | .object kvs, h => by
      have hkvs : contains_dynamicsObj kvs = false := by
        simpa [contains_dynamics] using h
      simp [preprocess, preprocessObj_nodyn pending path kvs hkvs]

theorem preprocessArr_nodyn (pending : List JPath) (path : JPath) (i : Nat) :
    ∀ xs : List JsonPP, contains_dynamicsList xs = false →
      preprocessArr pending path i xs = .ok (pending, xs)
  | [], _ => rfl
  | x :: xs, h => by
      have hx : contains_dynamics x = false := by
        simp [contains_dynamicsList] at h; exact h.1
      have hxs : contains_dynamicsList xs = false := by
        simp [contains_dynamicsList] at h; exact h.2
      simp [preprocessArr,
        preprocess_nodyn pending (path ++ [PathChunk.index i]) x hx,
        preprocessArr_nodyn pending path (i + 1) xs hxs]

theorem preprocessObj_nodyn (pending : List JPath) (path : JPath) :
    ∀ kvs : List (String × JsonPP), contains_dynamicsObj kvs = false →
      preprocessObj pending path kvs = .ok (pending, kvs)
  | [], _ => rfl
  | (k, v) :: kvs, h => by
      have hv : contains_dynamics v = false := by
        simp [contains_dynamicsObj] at h; exact h.1
      have hkvs : contains_dynamicsObj kvs = false := by
        simp [contains_dynamicsObj] at h; exact h.2
      simp [preprocessObj,
        preprocess_nodyn pending (path ++ [PathChunk.key k]) v hv,
        preprocessObj_nodyn pending path kvs hkvs]

end

mutual

/-- Strict-JSON injections contain no dynamics. -/
theorem nodyn_ofJson : ∀ j : Json, contains_dynamics (ofJson j) = false
  | .null => rfl
  | .bool _ => rfl
  | .intNum _ => rfl
  | .floatNum _ => rfl
  | .str _ => rfl
  | .arr xs => by simp [ofJson, contains_dynamics, nodynList_ofJson xs]
  | .obj kvs => by simp [ofJson, contains_dynamics, nodynObj_ofJson kvs]

theorem nodynList_ofJson :
    ∀ xs : List Json, contains_dynamicsList (ofJsonList xs) = false
  | [] => rfl
  | x :: xs => by
      simp [ofJsonList, contains_dynamicsList, nodyn_ofJson x,
        nodynList_ofJson xs]

theorem nodynObj_ofJson :
    ∀ kvs : List (String × Json),
      contains_dynamicsObj (ofJsonObj kvs) = false
  | [] => rfl
  | (k, v) :: kvs => by
      simp [ofJsonObj, contains_dynamicsObj, nodyn_ofJson v,
        nodynObj_ofJson kvs]

end

mutual

/-- Projection is a left inverse of the strict-JSON injection. -/
theorem tryInto_ofJson : ∀ j : Json, tryIntoJson (ofJson j) = some j
  | .null => rfl
  | .bool _ => rfl
  | .intNum _ => rfl
  | .floatNum _ => rfl
  | .str _ => rfl
  | .arr xs => by simp [ofJson, tryIntoJson, tryIntoList_ofJson xs]
  | .obj kvs => by simp [ofJson, tryIntoJson, tryIntoObj_ofJson kvs]

theorem tryIntoList_ofJson :
    ∀ xs : List Json, tryIntoJsonList (ofJsonList xs) = xs
  | [] => rfl
  | x :: xs => by
      simp [ofJsonList, tryIntoJsonList, tryInto_ofJson x,
        tryIntoList_ofJson xs]

theorem tryIntoObj_ofJson :
    ∀ kvs : List (String × Json), tryIntoJsonObj (ofJsonObj kvs) = kvs
  | [] => rfl
  | (k, v) :: kvs => by
      simp [ofJsonObj, tryIntoJsonObj, tryInto_ofJson v,
        tryIntoObj_ofJson kvs]

end

/-- Keys of a projected object all come from the source object. -/
theorem tryIntoJsonObj_keys_subset :
    ∀ kvs : List (String × JsonPP), ∀ k : String,
      k ∈ (tryIntoJsonObj kvs).map Prod.fst → k ∈ kvs.map Prod.fst
  | [], _, h => by simp [tryIntoJsonObj] at h
  | (k', v') :: rest, k, h => by
      rw [tryIntoJsonObj] at h
      cases hv : tryIntoJson v' with
      | none =>
          rw [hv] at h
          exact List.mem_cons_of_mem _ (tryIntoJsonObj_keys_subset rest k h)
      | some j =>
          rw [hv] at h
          rcases List.mem_cons.mp h with h1 | h1
          · exact List.mem_cons.mpr (Or.inl h1)
          · exact List.mem_cons_of_mem _ (tryIntoJsonObj_keys_subset rest k h1)

/-- A key bound to `Undefined` in an object with unique keys does not
survive projection. -/
theorem keys_not_mem_of_undefined :
    ∀ kvs : List (String × JsonPP), ∀ k : String,
      (kvs.map Prod.fst).Nodup → (k, JsonPP.undefined) ∈ kvs →
      k ∉ (tryIntoJsonObj kvs).map Prod.fst
  | [], k, _, hk => by simp at hk
  | (k', v') :: rest, k, hnodup, hk => by
      have hnodup' : (k' :: rest.map Prod.fst).Nodup := by simpa using hnodup
      have hnd1 : k' ∉ rest.map Prod.fst := (List.nodup_cons.mp hnodup').1
      have hnd2 : (rest.map Prod.fst).Nodup := (List.nodup_cons.mp hnodup').2
      rcases List.mem_cons.mp hk with h1 | h1
      · have hkk : k = k' := congrArg Prod.fst h1
        have hvv : JsonPP.undefined = v' := congrArg Prod.snd h1
        intro hmem
        rw [tryIntoJsonObj, ← hvv] at hmem
        simp only [tryIntoJson] at hmem
        exact hnd1 (hkk ▸ tryIntoJsonObj_keys_subset rest k hmem)
      · have hkmem : k ∈ rest.map Prod.fst :=
          List.mem_map.mpr ⟨(k, JsonPP.undefined), h1, rfl⟩
        have hne : k ≠ k' := fun he => hnd1 (he ▸ hkmem)
        intro hmem
        rw [tryIntoJsonObj] at hmem
        cases hv : tryIntoJson v' with
        | none =>
            rw [hv] at hmem
            exact keys_not_mem_of_undefined rest k hnd2 h1 hmem
        | some j =>
            rw [hv] at hmem
            rcases List.mem_cons.mp hmem with h2 | h2
            · exact hne (by simpa using h2)
            · exact keys_not_mem_of_undefined rest k hnd2 h1 h2

/-- Projection never lengthens an array. -/
theorem tryIntoJsonList_length_le :
    ∀ xs : List JsonPP, (tryIntoJsonList xs).length ≤ xs.length
  | [] => le_refl _
  | x :: xs => by
      rw [tryIntoJsonList]
      cases tryIntoJson x with
      | none => exact (tryIntoJsonList_length_le xs).trans (Nat.le_succ _)
      | some j => simpa using tryIntoJsonList_length_le xs

/-- An `Undefined` array slot is dropped by projection: the projected
array is strictly shorter. -/
theorem tryIntoJsonList_length_lt :
    ∀ xs : List JsonPP, JsonPP.undefined ∈ xs →
      (tryIntoJsonList xs).length < xs.length
  | x :: xs, hx => by
      rw [tryIntoJsonList]
      rcases List.mem_cons.mp hx with h1 | h1
      · rw [← h1]
        simp only [tryIntoJson]
        exact Nat.lt_succ_of_le (tryIntoJsonList_length_le xs)
      · cases tryIntoJson x with
        | none => exact Nat.lt_succ_of_lt (tryIntoJsonList_length_lt xs h1)
        | some j => simpa using tryIntoJsonList_length_lt xs h1

/-- Observer: the key list of a projected object (empty for any other
shape of projection result). -/
def jsonObjKeys : Option Json → List String
  | some (.obj kvs) => kvs.map Prod.fst
  | _ => []

/-- Observer: the length of a projected array (zero for any other
shape of projection result). -/
def jsonArrLen : Option Json → Nat
  | some (.arr xs) => xs.length
  | _ => 0

/-- The identifier-extraction pass of `def_impl` succeeds on a list of
identifiers and returns their names. -/
theorem mapM_identifiers :
    ∀ names : List String,
      (names.map JsonPP.identifier).mapM (fun a =>
        match a with
        | .identifier v => Except.ok v
        | _ => Except.error EvalError.typeMismatch) = Except.ok names
  | [] => rfl
  | n :: rest => by
      rw [List.map_cons, List.mapM_cons, mapM_identifiers rest]
      rfl

/-- Erasing never lengthens the pending list (specialisation of
`List.length_erase_le` used below). -/
theorem pendingErase_length_le (p : JPath) (pending : List JPath) :
    (pending.erase p).length ≤ pending.length :=
  List.length_erase_le p pending

/-- Splicing a resolved value and flagging progress: the only way the
do-tail of `processPath` succeeds is with the spliced state. -/
theorem bind_ok_state {X : Except EvalError JsonPP} {g : JsonPP → EvalState}
    {st' : EvalState} {b : Bool}
    (h : (X >>= fun root1 => Except.ok (g root1, true)) = .ok (st', b)) :
    ∃ root1, st' = g root1 ∧ b = true := by
  cases X with
  | error e => simp at h
  | ok r =>
      simp only [exceptBind_ok, exceptOk_inj, Prod.mk.injEq] at h
      exact ⟨r, h.1.symm, h.2.symm⟩

/-- C2 (amended): a resolution step whose resolved value contains no
new dynamics cannot grow the pending set — preprocessing such a result
adds no paths and the resolved path itself is removed, so the pending
count is non-increasing; the count can grow only when a resolved value
itself introduces new dynamics, as `map`/`filter`/`reduce` rewrites do
(see the counterexample). -/
theorem processPath_pending_le
    (st : EvalState) (prog : Bool) (p : JPath) (st' : EvalState) (b : Bool)
    (hrun : processPath st prog p = .ok (st', b))
    (hnodyn : ∀ args dpath deps v,
      abs_fetch p st.root = some (.dynamic args dpath deps) →
      resolveDyn args p st.root = Except.ok v →
      contains_dynamics v = false) :
    st'.pending.length ≤ st.pending.length := by
  unfold processPath at hrun
  cases hf : abs_fetch p st.root with
  | none => rw [hf] at hrun; simp at hrun
  | some v0 =>
      rw [hf] at hrun
      cases v0 with
      | dynamic args dpath deps =>
          dsimp only at hrun
          cases hm : List.mapM (depIsLive p (isRefHead args) st.root) deps with
          | error e => rw [hm] at hrun; simp at hrun
          | ok lives =>
              rw [hm] at hrun
              simp only [exceptBind_ok] at hrun
              by_cases hall : lives.all (fun l => l = false) = true
              · rw [if_pos hall] at hrun
                cases hr : resolveDyn args p st.root with
                | error e => rw [hr] at hrun; simp at hrun
                | ok v =>
                    have hnd : contains_dynamics v = false :=
                      hnodyn args dpath deps v hf hr
                    have hpre : preprocess st.pending p v = .ok (st.pending, v) :=
                      preprocess_nodyn st.pending p v hnd
                    rw [hr] at hrun
                    simp only [exceptBind_ok] at hrun
                    rw [hpre] at hrun
                    simp only [exceptBind_ok] at hrun
                    cases v <;>
                      · obtain ⟨r, h1, _⟩ := bind_ok_state hrun
                        rw [h1]
                        try first
                          | exact pendingErase_length_le p st.pending
                          | exact le_refl _
              · rw [if_neg hall] at hrun
                simp only [exceptOk_inj, Prod.mk.injEq] at hrun
                obtain ⟨h1, _⟩ := hrun
                rw [← h1]
      | undefined => simp at hrun
      | null => simp at hrun
      | bool _ => simp at hrun
      | str _ => simp at hrun
      | int _ => simp at hrun
      | float _ => simp at hrun
      | array _ => simp at hrun
      | object _ => simp at hrun
      | identifier _ => simp at hrun
      | definition _ _ => simp at hrun

/-! ## Claims -/

/-- Spec scenario 2: `{ "a": 10, "b": (ref ".a") }`. -/
def refSingleDotInput : JsonPP :=
  .object [("a", .int 10),
    ("b", .dynamic [.identifier "ref", .str ".a"] [] [])]

/-- The same object with the sibling reference written `..a`. -/
def refDoubleDotInput : JsonPP :=
  .object [("a", .int 10),
    ("b", .dynamic [.identifier "ref", .str "..a"] [] [])]

/-- C1 (counterexample): evaluating `{ "a": 10, "b": (ref ".a") }` does
not succeed with `{"a":10,"b":10}` — it aborts with `ReferenceCycle`.
`ref_chain ".a" = [Parent, Key "a"]`, and `make_absolute` consumes the
leading `Parent` by anchoring at the caller's own path `[Key "b"]`, so
the target is `b.a`; that path never exists, its nearest existing
ancestor is the `ref` dynamic itself, so the dependency stays live
forever and the loop makes no progress. -/
theorem ref_single_dot_cycles :
    evaluate 1 refSingleDotInput = .error .referenceCycle := rfl

/-- C1 (amended): for the input `{ "a": 10, "b": (ref "..a") }`
evaluation succeeds and returns the strict JSON `{"a":10,"b":10}`: the
leading dot of a reference anchors the path at the caller's own
location, so reaching a sibling needs one more dot to pop the caller's
key. -/
theorem ref_sibling_two_dots :
    evaluate 2 refDoubleDotInput =
      .ok (.obj [("a", .intNum 10), ("b", .intNum 10)]) := rfl

/-- `{ "m": (map (def x x) [1 2]) }`: resolving the `map` replaces one
pending path by two new element dynamics. -/
def mapIdentityInput : JsonPP :=
  .object [("m", .dynamic
    [.identifier "map",
     .dynamic [.identifier "def", .identifier "x", .identifier "x"] [] [],
     .array [.int 1, .int 2]] [] [])]

/-- C2 (counterexample): the resolve-loop iteration on
`{ "m": (map (def x x) [1 2]) }` starts with one pending path, resolves
the `map` (so the iteration resolved at least one dynamic — the
progress flag is `true`), and ends with two pending paths: the pending
count is not non-increasing across successful iterations. -/
theorem map_iteration_grows_pending :
    ((preprocess [] [] mapIdentityInput).bind fun pr =>
        (runIteration ⟨pr.2, pr.1⟩).map fun r =>
          (pr.1.length, r.1.pending.length, r.2)) = .ok (1, 2, true) ∧
    ¬ ((2 : Nat) ≤ 1) := ⟨rfl, by decide⟩

/-- The state of `{ "a": 10, "b": (ref "..a") }` right after
preprocessing, and the state after its single resolution step. -/
def refStepState : EvalState :=
  ⟨.object [("a", .int 10),
    ("b", .dynamic [.identifier "ref", .str "..a"] [.key "b"]
      [[.parent, .parent, .key "a"]])],
   [[.key "b"]]⟩

/-- The spliced state after the one resolution in `refStepState`. -/
def refStepStateAfter : EvalState :=
  ⟨.object [("a", .int 10), ("b", .int 10)], []⟩

/-- C2 (witness): a concrete resolution step — the `ref` of
`refStepState` — resolves to a dynamics-free value, and the pending
count indeed does not grow. -/
theorem processPath_pending_le_witness :
    refStepStateAfter.pending.length ≤ refStepState.pending.length :=
  processPath_pending_le refStepState false [.key "b"] refStepStateAfter true
    rfl
    (by
      intro args dpath deps v hf hr
      rw [show abs_fetch [PathChunk.key "b"] refStepState.root =
            some (JsonPP.dynamic [.identifier "ref", .str "..a"] [.key "b"]
              [[.parent, .parent, .key "a"]]) from rfl] at hf
      injection hf with h
      injection h with h1 h2 h3
      subst h1; subst h2; subst h3
      rw [show resolveDyn [JsonPP.identifier "ref", .str "..a"] [.key "b"]
            refStepState.root = Except.ok (.int 10) from rfl] at hr
      injection hr with hv
      subst hv
      rfl)

/-- C3 (counterexample): truthiness is not total — `is_truthy` hits the
`panic!` arm on `Undefined`, so `(if undefined a b)` is a fatal error
rather than selecting the else branch. -/
theorem truthiness_undefined_cx :
    is_truthy .undefined = .error .truthinessPanic ∧
    if_impl [.undefined, .int 1, .int 2] = .error .truthinessPanic :=
  ⟨rfl, rfl⟩

/-- C3 (amended): the truthiness coercion used by `if` returns false
for `Null`, the boolean itself for `Bool`, false for numeric zero and
for empty string/array/object, and true for everything else it is
defined on; but it is partial — `Undefined`, `Identifier`, `Definition`
and `Dynamic` conditions are fatal, so `(if undefined a b)` aborts
instead of selecting b. -/
theorem if_truthiness_partial (t e : JsonPP) (b : Bool) (n : Int) (q : FRat)
    (s : String) (xs : List JsonPP) (kvs : List (String × JsonPP)) :
    if_impl [.null, t, e] = .ok e ∧
    if_impl [.bool b, t, e] = .ok (if b then t else e) ∧
    if_impl [.int n, t, e] = .ok (if n == 0 then e else t) ∧
    if_impl [.float q, t, e] = .ok (if q.isZero then e else t) ∧
    if_impl [.str s, t, e] = .ok (if s == "" then e else t) ∧
    if_impl [.array xs, t, e] = .ok (if xs.isEmpty then e else t) ∧
    if_impl [.object kvs, t, e] = .ok (if kvs.isEmpty then e else t) ∧
    if_impl [.undefined, t, e] = .error .truthinessPanic ∧
    if_impl [.identifier s, t, e] = .error .truthinessPanic ∧
    if_impl [.definition [] t, t, e] = .error .truthinessPanic ∧
    if_impl [.dynamic [] [] [], t, e] = .error .truthinessPanic := by
  refine ⟨rfl, ?_, ?_, ?_, ?_, ?_, ?_, rfl, rfl, rfl, rfl⟩
  · cases b <;> rfl
  · cases h : (n == 0) <;> simp [if_impl, is_truthy, h]
  · cases h : q.isZero <;> simp [if_impl, is_truthy, h]
  · cases h : (s == "") <;> simp [if_impl, is_truthy, h]
  · cases h : xs.isEmpty <;> simp [if_impl, is_truthy, h]
  · cases h : kvs.isEmpty <;> simp [if_impl, is_truthy, h]

/-- C4: `div` with a second operand equal to integer 0 or float 0.0 is
the fatal `DivisionByZero` panic, whatever the first operand — in
particular `(div 1.0 0.0)` and `(div 1 0.0)` fail rather than producing
an infinity. -/
theorem div_by_zero_is_fatal (x : JsonPP) :
    div_impl [x, .int 0] = .error .divisionByZero ∧
    div_impl [x, .float (FRat.ofInt 0)] = .error .divisionByZero :=
  ⟨rfl, rfl⟩

/-- C5 (counterexample): `(pow 2 -1)` does not return the float 0.5 —
the Int×Int branch always wraps its result in `Int`, and the negative
exponent path rounds `powf`'s value, yielding the integer 1. -/
theorem pow_neg_exponent_cx :
    pow_impl [.int 2, .int (-1)] = .ok (.int 1) ∧
    pow_impl [.int 2, .int (-1)] ≠ .ok (.float ⟨1, 2⟩) :=
  ⟨rfl, by
    intro h
    exact JsonPP.noConfusion ((exceptOk_inj _ _).mp h)⟩

/-- C5 (amended): with two Int operands `pow` always returns an Int:
`a ^ b` in integer arithmetic when `b > 0` (through the wrapping
`as u32` cast), and the away-from-zero rounding of `powf(a, b)` when
`b ≤ 0` — so `(pow 2 -1)` is the Int 1, and `(pow 2 0)` is the Int 1.
A Float operand still produces the Float given by `powf`. -/
theorem pow_int_int_stays_int (a b : Int) (q : FRat) :
    pow_impl [.int a, .int b] =
      .ok (.int (if 0 < b then a ^ (b.toNat % 2 ^ 32)
                 else FRat.roundAz (FRat.powf (.ofInt a) (.ofInt b)))) ∧
    pow_impl [.float q, .int b] = .ok (.float (q.powf (.ofInt b))) ∧
    pow_impl [.int a, .float q] = .ok (.float ((FRat.ofInt a).powf q)) ∧
    pow_impl [.int 2, .int (-1)] = .ok (.int 1) ∧
    pow_impl [.int 2, .int 0] = .ok (.int 1) := by
  refine ⟨?_, ?_, ?_, rfl, rfl⟩ <;>
    simp [pow_impl, num_reduce, num_pair_op, powIntInt, List.foldlM]

/-- Spec scenario 3: `{ "v": (if true 1 (div 1 0)) }`. -/
def ifBothBranchesInput : JsonPP :=
  .object [("v", .dynamic
    [.identifier "if", .bool true, .int 1,
     .dynamic [.identifier "div", .int 1, .int 0] [] []] [] [])]

/-- C6: preprocessing `{ "v": (if true 1 (div 1 0)) }` records a
dependency `[Parent, Argument 3]` from the `if` on its (unchosen)
else-branch dynamic, so the `if` waits for it; resolving that branch
first makes the whole evaluation fail with `DivisionByZero` even though
the condition is true. -/
theorem if_waits_for_both_branches :
    (preprocess [] [] ifBothBranchesInput).map
        (fun pr => (pr.1, abs_fetch [.key "v"] pr.2)) =
      .ok ([[.key "v"], [.key "v", .argument 3]],
        some (.dynamic
          [.identifier "if", .bool true, .int 1,
            .dynamic [.identifier "div", .int 1, .int 0]
              [.key "v", .argument 3] []]
          [.key "v"] [[.parent, .argument 3]])) ∧
    evaluate 1 ifBothBranchesInput = .error .divisionByZero := ⟨rfl, rfl⟩

/-- C7: for every input that is already valid strict JSON (only Null,
Bool, Int, Float, String, Array, Object — the image of `ofJson`),
evaluation followed by projection is the identity, for any amount of
fuel: preprocessing leaves the tree untouched with an empty pending
set, the loop exits at once, and projection inverts the inclusion. -/
theorem strict_json_evaluates_to_itself (fuel : Nat) (j : Json) :
    evaluate (fuel + 1) (ofJson j) = .ok j := by
  have h1 : preprocess [] [] (ofJson j) = .ok ([], ofJson j) :=
    preprocess_nodyn [] [] (ofJson j) (nodyn_ofJson j)
  simp [evaluate, evaluate_raw, h1, evalLoop, tryInto_ofJson j]

/-- C8: projection elides `Undefined` children: a key bound to
`Undefined` in an object (with the unique keys the parser guarantees)
is absent from the projected object, and an `Undefined` array slot is
omitted, making the projected array strictly shorter. -/
theorem undefined_children_elided (kvs : List (String × JsonPP))
    (xs : List JsonPP) (k : String)
    (hk : (k, JsonPP.undefined) ∈ kvs)
    (hnodup : (kvs.map Prod.fst).Nodup)
    (hx : JsonPP.undefined ∈ xs) :
    k ∉ jsonObjKeys (tryIntoJson (.object kvs)) ∧
    jsonArrLen (tryIntoJson (.array xs)) < xs.length := by
  constructor
  · have := keys_not_mem_of_undefined kvs k hnodup hk
    simpa [jsonObjKeys, tryIntoJson] using this
  · have := tryIntoJsonList_length_lt xs hx
    simpa [jsonArrLen, tryIntoJson] using this

/-- C8 (witness): `{"k": undefined, "a": 1}` projects without the key
`"k"`, and `[1, undefined]` projects to fewer than two elements. -/
theorem undefined_children_elided_witness :
    "k" ∉ jsonObjKeys
        (tryIntoJson (.object [("k", .undefined), ("a", .int 1)])) ∧
    jsonArrLen (tryIntoJson (.array [.int 1, .undefined])) < 2 :=
  undefined_children_elided [("k", .undefined), ("a", .int 1)]
    [.int 1, .undefined] "k"
    (List.mem_cons_self _ _)
    (by decide)
    (List.mem_cons_of_mem _ (List.mem_cons_self _ _))

/-- C9 (counterexample): `def_impl` performs no distinctness check —
`(def x x 1)` produces a `Definition` whose `vars` list `["x", "x"]` is
not pairwise distinct. -/
theorem def_duplicate_params_cx :
    def_impl [.identifier "x", .identifier "x", .int 1] =
      .ok (.definition ["x", "x"] (.int 1)) ∧
    ¬ (["x", "x"] : List String).Nodup := ⟨rfl, by decide⟩

/-- C9 (amended): the `vars` of a `Definition` built by `def` are
exactly the names of the leading `Identifier` operands in order, with
duplicates kept — no distinctness is enforced anywhere. -/
theorem def_vars_are_leading_identifiers (names : List String)
    (body : JsonPP) (h : names ≠ []) :
    def_impl (names.map .identifier ++ [body]) =
      .ok (.definition names body) := by
  have hpos : 0 < names.length := List.length_pos.mpr h
  have hlen : (names.map JsonPP.identifier ++ [body]).length =
      names.length + 1 := by simp
  unfold def_impl
  rw [hlen]
  rw [if_neg (by omega)]
  have htake :
      (names.map JsonPP.identifier ++ [body]).take (names.length + 1 - 1) =
        names.map JsonPP.identifier := by
    have heq : names.length + 1 - 1 = names.length := by omega
    rw [heq]
    exact List.take_left' (by simp)
  rw [htake, mapM_identifiers names]
  simp only [exceptBind_ok]
  rw [List.getLast?_concat]

/-- C9 (witness): the amended statement at the duplicated parameter
list `["x", "x"]`. -/
theorem def_vars_witness :
    def_impl (["x", "x"].map .identifier ++ [.int 1]) =
      .ok (.definition ["x", "x"] (.int 1)) :=
  def_vars_are_leading_identifiers ["x", "x"] (.int 1) (by decide)

/-- C10: `eq` never coerces between Int and Float: for every integer
`n`, comparing `n` with `(float n)` — e.g. `(eq 1 1.0)` — yields
`Bool false`, because equality is the structural equality of the tagged
value union and the two operands carry different tags. -/
theorem eq_int_float_never_equal (n : Int) :
    (float_impl [.int n]).bind (fun f => eq_impl [.int n, f]) =
      .ok (.bool false) := rfl
